import Mathlib

set_option maxRecDepth 40000

/-!
Verification of the HMM call-prep identity validator.

The repository holds two variants of the validator:
  * `src/validator.py`  — anchored ID regexes, comma-required conversational
    path, dict-shaped structured input (embedded below as namespace `VStrict`);
  * `src/vlad3=5.py`    — conversational-only variant with search-anywhere ID
    regex and tolerant messy-name extraction (embedded as namespace `V35`).

Strings are modelled as `List Char`; the inputs under study are ASCII, so the
Python character classes (digits, word characters, whitespace, ASCII letters)
are modelled by their ASCII meaning.  Machine `datetime` values are modelled by
a `Date` record of naturals together with the Gregorian calendar-validity
check that `datetime.date` construction performs, and the clock read
`date.today()` is passed in explicitly as a `today : Date` argument.
-/

/-- ASCII decimal digit, the model of the regex digit class over the
validator's ASCII inputs. -/
def isDigitC (c : Char) : Bool := 48 ≤ c.toNat && c.toNat ≤ 57

/-- ASCII letter, the model of the regex class A-Za-z. -/
def isAlphaC (c : Char) : Bool :=
  (65 ≤ c.toNat && c.toNat ≤ 90) || (97 ≤ c.toNat && c.toNat ≤ 122)

/-- ASCII whitespace: the characters matched by the regex whitespace class
and stripped by Python str.strip on ASCII text. -/
def isWsC (c : Char) : Bool :=
  c.toNat = 32 || c.toNat = 9 || c.toNat = 10 || c.toNat = 13 ||
  c.toNat = 11 || c.toNat = 12

/-- ASCII word character (regex word class): letter, digit or underscore. -/
def isWordC (c : Char) : Bool := isAlphaC c || isDigitC c || c = '_'

/-- ASCII lower-casing of one character (Python str.lower on ASCII). -/
def lowerC (c : Char) : Char :=
  if 65 ≤ c.toNat ∧ c.toNat ≤ 90 then Char.ofNat (c.toNat + 32) else c

/-- ASCII upper-casing of one character. -/
def upperC (c : Char) : Char :=
  if 97 ≤ c.toNat ∧ c.toNat ≤ 122 then Char.ofNat (c.toNat - 32) else c

/-- Python str.lstrip on a character list. -/
def ltrimC (l : List Char) : List Char := l.dropWhile isWsC

/-- Python str.rstrip on a character list. -/
def rtrimC (l : List Char) : List Char := l.rdropWhile isWsC

/-- Python str.strip on a character list. -/
def trimC (l : List Char) : List Char := rtrimC (ltrimC l)

/-- Lower-case a whole character list. -/
def lowerL (l : List Char) : List Char := l.map lowerC

/-- Python str.title restricted to ASCII: a letter is upper-cased when it does
not follow a letter, and lower-cased otherwise; used for display_name. -/
def titleGo (prevAlpha : Bool) : List Char → List Char
  | [] => []
  | c :: t =>
    (if prevAlpha then lowerC c else upperC c) :: titleGo (isAlphaC c) t

/-- Python str.title on a character list (ASCII model). -/
def titleC (l : List Char) : List Char := titleGo false l

/-- Gregorian leap-year rule used by Python datetime. -/
def isLeap (y : Nat) : Bool := (y % 4 = 0 && ¬ y % 100 = 0) || y % 400 = 0

/-- Length of a month, as validated by Python datetime.date. -/
def daysInMonth (y m : Nat) : Nat :=
  if m = 2 then (if isLeap y then 29 else 28)
  else if m = 4 ∨ m = 6 ∨ m = 9 ∨ m = 11 then 30
  else 31

/-- A calendar date; mirrors datetime.date fields. -/
structure Date where
  y : Nat
  m : Nat
  d : Nat
deriving DecidableEq, Repr

/-- The validity check performed by datetime.date(year, month, day):
year within 1..9999, month within 1..12, day within the month. -/
def validDate (y m d : Nat) : Bool :=
  1 ≤ y && y ≤ 9999 && 1 ≤ m && m ≤ 12 && 1 ≤ d && d ≤ daysInMonth y m

/-- Strict chronological order on dates (datetime.date comparison). -/
def dateLtB (a b : Date) : Bool :=
  a.y < b.y || (a.y = b.y && (a.m < b.m || (a.m = b.m && a.d < b.d)))

/-- Numeric value of an ASCII digit character. -/
def digitVal (c : Char) : Nat := c.toNat - 48

/-- The ASCII digit character for a value below ten. -/
def dchar (n : Nat) : Char :=
  match n with
  | 0 => '0' | 1 => '1' | 2 => '2' | 3 => '3' | 4 => '4'
  | 5 => '5' | 6 => '6' | 7 => '7' | 8 => '8' | _ => '9'

/-- Two-digit zero-padded rendering (strftime directives for month and day). -/
def pad2 (n : Nat) : List Char := [dchar (n / 10 % 10), dchar (n % 10)]

/-- Four-digit zero-padded rendering (strftime year directive, modelled as
zero-padded to four digits, matching the four-digit year form the
validator's strptime year directive requires). -/
def pad4 (n : Nat) : List Char :=
  [dchar (n / 1000 % 10), dchar (n / 100 % 10), dchar (n / 10 % 10), dchar (n % 10)]

/-!
CPython strptime, specialised to the three formats the validators try.
The CPython implementation compiles each format to a regex; the month
directive becomes the alternation 1[0-2] | 0[1-9] | [1-9], the day directive
3[01] | [12][0-9] | 0[1-9] | [1-9], and the year directive exactly four
digits.  The engine returns the first full-pattern completion in
alternation/backtracking order as a prefix match; strptime then errors unless
the whole string was consumed, and datetime.date construction then errors on
a non-real calendar date.  Both errors are caught by the validators and
treated as failure of that format.  `mCands` and `dCands` list the candidate
readings of a month/day directive in engine order.
-/

/-- Candidate parses of the strptime month directive, in engine order. -/
def mCands : List Char → List (Nat × List Char)
  | c1 :: c2 :: r =>
    (if c1 = '1' ∧ '0' ≤ c2 ∧ c2 ≤ '2' then [(10 + digitVal c2, r)] else []) ++
    (if c1 = '0' ∧ '1' ≤ c2 ∧ c2 ≤ '9' then [(digitVal c2, r)] else []) ++
    (if '1' ≤ c1 ∧ c1 ≤ '9' then [(digitVal c1, c2 :: r)] else [])
  | [c1] => if '1' ≤ c1 ∧ c1 ≤ '9' then [(digitVal c1, [])] else []
  | [] => []

/-- Candidate parses of the strptime day directive, in engine order. -/
def dCands : List Char → List (Nat × List Char)
  | c1 :: c2 :: r =>
    (if c1 = '3' ∧ '0' ≤ c2 ∧ c2 ≤ '1' then [(30 + digitVal c2, r)] else []) ++
    (if (c1 = '1' ∨ c1 = '2') ∧ isDigitC c2 then
      [(10 * digitVal c1 + digitVal c2, r)] else []) ++
    (if c1 = '0' ∧ '1' ≤ c2 ∧ c2 ≤ '9' then [(digitVal c2, r)] else []) ++
    (if '1' ≤ c1 ∧ c1 ≤ '9' then [(digitVal c1, c2 :: r)] else [])
  | [c1] => if '1' ≤ c1 ∧ c1 ≤ '9' then [(digitVal c1, [])] else []
  | [] => []

/-- The strptime year directive: exactly four digits. -/
def yParse : List Char → Option (Nat × List Char)
  | c1 :: c2 :: c3 :: c4 :: r =>
    if isDigitC c1 ∧ isDigitC c2 ∧ isDigitC c3 ∧ isDigitC c4 then
      some (((digitVal c1 * 10 + digitVal c2) * 10 + digitVal c3) * 10
            + digitVal c4, r)
    else none
  | _ => none

/-- Match one literal character (a regex literal). -/
def expectC (c : Char) : List Char → Option (List Char)
  | x :: r => if x = c then some r else none
  | [] => none

/-- First full-pattern completion of month-sep-day-sep-year, in engine
order; returns (month, day, year, unconsumed rest). -/
def mdyComplete (sep : Char) (l : List Char) : Option (Nat × Nat × Nat × List Char) :=
  (mCands l).findSome? fun mc =>
    (expectC sep mc.2).bind fun r1 =>
      (dCands r1).findSome? fun dc =>
        (expectC sep dc.2).bind fun r2 =>
          (yParse r2).map fun yc => (mc.1, dc.1, yc.1, yc.2)

/-- First full-pattern completion of year-hyphen-month-hyphen-day. -/
def ymdComplete (l : List Char) : Option (Nat × Nat × Nat × List Char) :=
  (yParse l).bind fun yc =>
    (expectC '-' yc.2).bind fun r1 =>
      (mCands r1).findSome? fun mc =>
        (expectC '-' mc.2).bind fun r2 =>
          (dCands r2).findSome? fun dc => some (mc.1, dc.1, yc.1, dc.2)

/-- strptime tail: reject when input was not fully consumed ("unconverted
data remains") or the fields do not form a real datetime.date. -/
def finishStrp : Option (Nat × Nat × Nat × List Char) → Option Date
  | some (m, d, y, rest) =>
    if rest = [] ∧ validDate y m d then some ⟨y, m, d⟩ else none
  | none => none

/-- strptime with the month-day-year hyphen format. -/
def strpMDYhyphen (l : List Char) : Option Date := finishStrp (mdyComplete '-' l)

/-- strptime with the month-day-year slash format. -/
def strpMDYslash (l : List Char) : Option Date := finishStrp (mdyComplete '/' l)

/-- strptime with the year-month-day hyphen format. -/
def strpYMD (l : List Char) : Option Date := finishStrp (ymdComplete l)

/-- The loop over _DATE_FORMATS: first format that parses wins. -/
def tryFormats (l : List Char) : Option Date :=
  (strpMDYhyphen l).orElse fun _ =>
    (strpMDYslash l).orElse fun _ => strpYMD l

/-- The last-resort retry: rewrite every slash to a hyphen. -/
def slashToHyphen (l : List Char) : List Char :=
  l.map fun c => if c = '/' then '-' else c

/-- strftime month-hyphen-day-hyphen-year: the canonical DOB rendering. -/
def renderCanonical (dt : Date) : List Char :=
  pad2 dt.m ++ '-' :: (pad2 dt.d ++ '-' :: pad4 dt.y)

/-- `_parse_normalize_dob` of src/validator.py and `_normalize_dob` of
src/vlad3=5.py (their bodies are behaviourally identical): strip the raw
text, try the three formats, on failure retry once with slashes rewritten to
hyphens, reject dates after `today`, and render month-day-year. -/
def normalizeDob (today : Date) (raw : String) : Option String :=
  let s := trimC raw.data
  if s = [] then none
  else
    match (tryFormats s).orElse fun _ => tryFormats (slashToHyphen s) with
    | none => none
    | some dt => if dateLtB today dt then none else some ⟨renderCanonical dt⟩


/-- The payload dict of a successful validation, tagged by its method key:
`idRec` is the method="id" record, `nameDob` the method="name_dob" record. -/
inductive Payload where
  | idRec (subscriber_id member_id full_id : String)
  | nameDob (first_name last_name display_name dob : String)
deriving DecidableEq, Repr

/-- The IdentityResult triple (valid, payload, error) of both validators. -/
abbrev Res := Bool × Option Payload × Option String

/-- Successful return: (True, payload, None). -/
def okR (p : Payload) : Res := (true, some p, none)

/-- Failure return: (False, None, error). -/
def errR (e : String) : Res := (false, none, some e)

/-- A dict-shaped input for validator.py, one optional field per recognized
key; `none` models an absent key (or a non-string, falsy value such as None)
and `some s` a string value.  Values of other Python types are outside the
ASCII-string model used here. -/
structure Dct where
  subscriber_id : Option String := none
  subscriberId : Option String := none
  subscriber : Option String := none
  suffix : Option String := none
  member_suffix : Option String := none
  suffix_id : Option String := none
  member_id : Option String := none
  memberId : Option String := none
  member : Option String := none
  first_name : Option String := none
  firstName : Option String := none
  fname : Option String := none
  last_name : Option String := none
  lastName : Option String := none
  lname : Option String := none
  dob : Option String := none
  date_of_birth : Option String := none
  birthdate : Option String := none
  text : Option String := none
  query : Option String := none
  message : Option String := none
deriving DecidableEq, Repr

/-- The dynamic type of `inp`: a free-text string, a key-value dict, or a
value of any other type. -/
inductive RawInput where
  | text (s : String)
  | dict (d : Dct)
  | other
deriving DecidableEq, Repr

/-- Python truthiness of an optional string: None and the empty string are
falsy. -/
def truthyO : Option String → Bool
  | none => false
  | some s => !(s == "")

/-- Python `a or b` on optional string values. -/
def pyOr (a b : Option String) : Option String := if truthyO a then a else b

/-- A one-character string holding an apostrophe (used in source messages). -/
def apos : String := ⟨['\'']⟩

/-- Split a character list on runs of characters satisfying `p`, dropping
empty pieces; `acc` carries the current piece reversed. -/
def splitByGo (p : Char → Bool) (acc : List Char) : List Char → List (List Char)
  | [] => if acc = [] then [] else [acc.reverse]
  | c :: t =>
    if p c then
      if acc = [] then splitByGo p [] t
      else acc.reverse :: splitByGo p [] t
    else splitByGo p (c :: acc) t

/-- Join pieces with single spaces (str.join with a space separator). -/
def joinSpace : List (List Char) → List Char
  | [] => []
  | [t] => t
  | t :: ts => t ++ ' ' :: joinSpace ts

/-- _split_name of src/validator.py: strip, split on whitespace, require at
least two parts; the first part lowered becomes the first name and the
remaining parts joined with spaces and lowered become the last name. -/
def splitName (full : List Char) : Option (List Char × List Char) :=
  match splitByGo isWsC [] (trimC full) with
  | w1 :: w2 :: ws => some (lowerL w1, lowerL (joinSpace (w2 :: ws)))
  | _ => none

/-- The display_name construction: title-cased first and last, joined by a
space. -/
def displayOf (first last : List Char) : List Char :=
  titleC first ++ ' ' :: titleC last

namespace V35

/-- Character class of the two name groups in _RE_NAME_SIMPLE: letters,
apostrophe, hyphen, dot, whitespace. -/
def isNameC (c : Char) : Bool :=
  isAlphaC c || c = '\'' || c = '-' || c = '.' || isWsC c

/-- Separator class of _RE_NAME_SIMPLE: whitespace or comma. -/
def isSepC (c : Char) : Bool := isWsC c || c = ','

/-- The date separators accepted inside the date groups. -/
def dateSepC (c : Char) : Bool := c = '-' || c = '/'

/-- Consume exactly `n` digits, the sub-attempt of a counted digit repeat. -/
def digitsExact (n : Nat) (l : List Char) : Option (List Char × List Char) :=
  let a := l.take n
  if a.length = n ∧ a.all isDigitC then some (a, l.drop n) else none

/-- Try the counts of a greedy counted digit repeat in engine order (longest
first), continuing with `k` on the captured digits and the rest. -/
def tryCounts {α : Type} (counts : List Nat) (l : List Char)
    (k : List Char → List Char → Option α) : Option α :=
  counts.findSome? fun n => (digitsExact n l).bind fun pr => k pr.1 pr.2

/-- The date group of _RE_NAME_SIMPLE (one-to-four digits, separator,
one-to-two digits, separator, two-to-four digits), greedy repeats tried
longest first; returns (captured text, rest). -/
def dateGroup (l : List Char) : Option (List Char × List Char) :=
  tryCounts [4, 3, 2, 1] l fun d1 r1 =>
    match r1 with
    | s1 :: r2 =>
      if dateSepC s1 then
        tryCounts [2, 1] r2 fun d2 r3 =>
          match r3 with
          | s2 :: r4 =>
            if dateSepC s2 then
              tryCounts [4, 3, 2] r4 fun d3 _ =>
                some (d1 ++ s1 :: d2 ++ s2 :: d3, r4.drop d3.length)
            else none
          | [] => none
      else none
    | [] => none

/-- Stage four of _RE_NAME_SIMPLE: the greedy separator run before the date
group, longest consumption first, then the date group. -/
def sep2Stage (g1 g2 : List Char) (l : List Char) :
    Option (List Char × List Char × List Char) :=
  let run := l.takeWhile isSepC
  (List.range run.length).findSome? fun j =>
    (dateGroup (l.drop (run.length - j))).map fun dg => (g1, g2, dg.1)

/-- Stage three: the lazy last-name group, shortest extension first; `acc`
holds the group matched so far (a letter followed by name-class characters). -/
def lastLazy (g1 acc : List Char) : List Char → Option (List Char × List Char × List Char)
  | [] => none
  | c :: t =>
    if isNameC c then
      match sep2Stage g1 (acc ++ [c]) t with
      | some r => some r
      | none => lastLazy g1 (acc ++ [c]) t
    else none

/-- The last-name group must start with a letter. -/
def lastStart (g1 : List Char) : List Char → Option (List Char × List Char × List Char)
  | [] => none
  | c :: t => if isAlphaC c then lastLazy g1 [c] t else none

/-- Stage two: the greedy separator run between the name groups, longest
consumption first. -/
def sep1Stage (g1 : List Char) (l : List Char) :
    Option (List Char × List Char × List Char) :=
  let run := l.takeWhile isSepC
  (List.range run.length).findSome? fun j =>
    lastStart g1 (l.drop (run.length - j))

/-- Stage one: the lazy first-name group, shortest extension first. -/
def firstLazy (acc : List Char) : List Char → Option (List Char × List Char × List Char)
  | [] => none
  | c :: t =>
    if isNameC c then
      match sep1Stage (acc ++ [c]) t with
      | some r => some r
      | none => firstLazy (acc ++ [c]) t
    else none

/-- One anchored attempt of _RE_NAME_SIMPLE: the first-name group starts
with a letter. -/
def simpleAt : List Char → Option (List Char × List Char × List Char)
  | [] => none
  | c :: t => if isAlphaC c then firstLazy [c] t else none

/-- re.search with _RE_NAME_SIMPLE: try each position left to right and
return the captured (first, last, date) groups of the leftmost match. -/
def nameSimpleSearch : List Char → Option (List Char × List Char × List Char)
  | [] => none
  | c :: t =>
    match simpleAt (c :: t) with
    | some r => some r
    | none => nameSimpleSearch t

/-- One attempt of _DATE_SEARCH at the head: first the ISO alternative
(four digits, hyphen, two, hyphen, two), then the permissive alternative, in
the alternation order of the source pattern. -/
def dateSearchAt (l : List Char) : Option (List Char × List Char) :=
  let iso :=
    (digitsExact 4 l).bind fun p1 =>
      (expectC '-' p1.2).bind fun r1 =>
        (digitsExact 2 r1).bind fun p2 =>
          (expectC '-' p2.2).bind fun r2 =>
            (digitsExact 2 r2).map fun p3 =>
              (p1.1 ++ '-' :: p2.1 ++ '-' :: p3.1, p3.2)
  match iso with
  | some r => some r
  | none =>
    tryCounts [2, 1] l fun d1 r1 =>
      match r1 with
      | s1 :: r2 =>
        if dateSepC s1 then
          tryCounts [2, 1] r2 fun d2 r3 =>
            match r3 with
            | s2 :: r4 =>
              if dateSepC s2 then
                tryCounts [4, 3, 2] r4 fun d3 _ =>
                  some (d1 ++ s1 :: d2 ++ s2 :: d3, r4.drop d3.length)
              else none
            | [] => none
        else none
      | [] => none

/-- re.search with _DATE_SEARCH: leftmost match; returns the text before
the match and the matched date text. -/
def dateScanGo (acc : List Char) : List Char → Option (List Char × List Char)
  | [] => none
  | c :: t =>
    match dateSearchAt (c :: t) with
    | some r => some (acc.reverse, r.1)
    | none => dateScanGo (c :: acc) t

/-- re.search with _DATE_SEARCH from the start of the list. -/
def dateScan (l : List Char) : Option (List Char × List Char) := dateScanGo [] l

/-- The leading filler phrases stripped by _clean_name_chunk, in the
alternation order of the source regex. -/
def leadPhrases : List (List Char) :=
  [String.data ("give me details of"), String.data ("give me details"),
   String.data ("show me"), String.data ("show"), String.data ("fetch"),
   String.data ("find"), String.data ("details of")]

/-- One alternative of the leading-phrase pattern: a case-insensitive match
of the phrase at the front followed by a mandatory whitespace run; on
success the phrase and the whitespace run are removed. -/
def stripPhrase1 (phrase l : List Char) : Option (List Char) :=
  if lowerL (l.take phrase.length) = phrase then
    let rest := l.drop phrase.length
    let ws := rest.takeWhile isWsC
    if ws = [] then none else some (rest.drop ws.length)
  else none

/-- The anchored leading-phrase removal of _clean_name_chunk (first
alternative that matches wins; at most one removal since the pattern is
anchored). -/
def stripLeadPhrase (l : List Char) : List Char :=
  match leadPhrases.findSome? fun p => stripPhrase1 p l with
  | some r => r
  | none => l

/-- The honorific/suffix/label tokens discarded by _clean_name_chunk. -/
def honorifics : List (List Char) :=
  [String.data ("mr"), String.data ("mrs"), String.data ("ms"),
   String.data ("dr"), String.data ("sir"), String.data ("sr"),
   String.data ("sr."), String.data ("jr"), String.data ("jr."),
   String.data ("esq"), String.data ("esq."), String.data ("esquire"),
   String.data ("subscriber"), String.data ("attn"), String.data ("attny"),
   String.data ("hon"), String.data ("hon.")]

/-- str.strip with a dot argument: remove leading and trailing dots. -/
def stripDots (l : List Char) : List Char :=
  (l.dropWhile fun c => c = '.').rdropWhile fun c => c = '.'

/-- First cleanup pass character class: word characters, apostrophe, hyphen,
dot. -/
def coreKeep (c : Char) : Bool := isWordC c || c = '\'' || c = '-' || c = '.'

/-- The token loop of _clean_name_chunk: strip stray punctuation from each
token, drop empty results, drop honorifics (compared lower-cased with outer
dots stripped), keep the cleaned token otherwise. -/
def cleanTokens : List (List Char) → List (List Char)
  | [] => []
  | t :: ts =>
    let core := t.filter coreKeep
    if core = [] then cleanTokens ts
    else if honorifics.contains (stripDots (lowerL core)) then cleanTokens ts
    else core :: cleanTokens ts

/-- Second cleanup pass character class: word characters, apostrophe, hyphen
and whitespace (dots are removed here). -/
def finalKeep (c : Char) : Bool := isWordC c || c = '\'' || c = '-' || isWsC c

/-- Collapse whitespace runs to single spaces and strip. -/
def collapseWs (l : List Char) : List Char := joinSpace (splitByGo isWsC [] l)

/-- _clean_name_chunk of src/vlad3=5.py. -/
def cleanNameChunk (chunk : List Char) : List Char :=
  let s := trimC chunk
  if s = [] then []
  else
    let s1 := stripLeadPhrase s
    let kept := cleanTokens (splitByGo isSepC [] s1)
    let cleaned := (joinSpace kept).filter finalKeep
    collapseWs cleaned

/-- The tail of _extract_name_before_date: clean the candidate, require at
least two words, lower-case the first word and the joined rest. -/
def finishExtract (candidate : List Char) : Option (List Char × List Char) :=
  let cleaned := cleanNameChunk candidate
  if cleaned = [] then none
  else
    match splitByGo isWsC [] cleaned with
    | w1 :: w2 :: ws => some (lowerL w1, lowerL (joinSpace (w2 :: ws)))
    | _ => none

/-- _extract_name_before_date of src/vlad3=5.py: anchor on the date, take
the last one or two comma-separated chunks before it as the name candidate,
clean it and split it into first/last. -/
def extractNameBeforeDate (l : List Char) : Option (List Char × List Char) :=
  match dateScan l with
  | none => none
  | some (before, _) =>
    let before1 := trimC before
    if before1 = [] then none
    else
      let parts :=
        ((splitByGo (fun c => c = ',') [] before1).map trimC).filter (· ≠ [])
      match parts.reverse with
      | [] => none
      | [p1] => finishExtract p1
      | p1 :: p2 :: _ => finishExtract (p2 ++ ' ' :: p1)

/-- One attempt of _RE_ID_SLASH of src/vlad3=5.py at the head: nine digits,
a slash or backslash, two digits. -/
def idSlashAt (l : List Char) : Option (List Char × List Char) :=
  let a := l.take 9
  if a.length = 9 ∧ a.all isDigitC then
    match l.drop 9 with
    | sep :: rest =>
      if sep = '/' ∨ sep = '\\' then
        let b := rest.take 2
        if b.length = 2 ∧ b.all isDigitC then some (a, b) else none
      else none
    | [] => none
  else none

/-- re.search with _RE_ID_SLASH: leftmost match of the unanchored pattern. -/
def findIdSlash : List Char → Option (List Char × List Char)
  | [] => none
  | c :: t =>
    match idSlashAt (c :: t) with
    | some r => some r
    | none => findIdSlash t

/-- Error message for empty input. -/
def msgEmpty : String := "Empty input."

/-- Error message when a date was located but failed normalization. -/
def msgDobInvalid : String := "DOB unparseable or invalid."

/-- Error message for non-string input. -/
def msgNotString : String := "Validator expects a conversational string input."

/-- The final not-recognized guidance message of src/vlad3=5.py. -/
def msgNotRecognized : String :=
  "Input not recognized. Provide either:\n- Subscriber ID: 9 digits + " ++
  apos ++ "/" ++ apos ++ " + 2 digits, e.g. 050028449/00\n- Name + DOB: " ++
  apos ++ "First Last, MM-DD-YYYY" ++ apos ++ " or " ++ apos ++
  "First,Last,MM/DD/YYYY" ++ apos

/-- validate_input of src/vlad3=5.py: strings only; empty check; ID path
(search anywhere); simple name+date pattern; tolerant anchor-based
extraction; otherwise the guidance error. -/
def validate (today : Date) (inp : RawInput) : Res :=
  match inp with
  | RawInput.text s =>
    let t := trimC s.data
    if t = [] then errR msgEmpty
    else
      match findIdSlash t with
      | some (a, b) => okR (Payload.idRec ⟨a⟩ ⟨b⟩ ⟨a ++ '/' :: b⟩)
      | none =>
        match nameSimpleSearch t with
        | some (fr, lr, dr) =>
          match normalizeDob today ⟨dr⟩ with
          | none => errR msgDobInvalid
          | some dob =>
            let first := lowerL (trimC fr)
            let last := lowerL (trimC lr)
            okR (Payload.nameDob ⟨first⟩ ⟨last⟩ ⟨displayOf first last⟩ dob)
        | none =>
          match extractNameBeforeDate t with
          | some (first, last) =>
            let datePart :=
              match dateScan t with
              | some (_, g) => g
              | none => []
            match normalizeDob today ⟨datePart⟩ with
            | none => errR msgDobInvalid
            | some dob =>
              okR (Payload.nameDob ⟨first⟩ ⟨last⟩ ⟨displayOf first last⟩ dob)
          | none => errR msgNotRecognized
  | _ => errR msgNotString

end V35

namespace VStrict

/-- The anchored _RE_ID_SLASH of src/validator.py applied to the stripped
string (the pattern is anchored at both ends, with optional surrounding
whitespace that is empty after stripping): exactly nine digits, a slash or
backslash, exactly two digits. -/
def anchoredIdSlash (t : List Char) : Option (List Char × List Char) :=
  let a := t.take 9
  if a.length = 9 ∧ a.all isDigitC then
    match t.drop 9 with
    | sep :: rest =>
      if (sep = '/' ∨ sep = '\\') ∧ rest.length = 2 ∧ rest.all isDigitC then
        some (a, rest)
      else none
    | [] => none
  else none

/-- The anchored _RE_ID_11 applied to the stripped string: exactly eleven
digits. -/
def anchored11 (t : List Char) : Bool := t.length = 11 && t.all isDigitC

/-- _RE_CONVERSATIONAL applied to the stripped string.  The pattern is
caret, optional whitespace, a lazy non-empty name group, optional
whitespace, a comma, optional whitespace, a lazy non-empty date group,
optional whitespace, dollar.  On a stripped string this matches exactly when
some comma splits the string into a non-empty right-trimmed name part and a
non-empty left-trimmed date part reaching the end, neither containing a
newline (the dot does not match newlines); the engine's lazy name group
selects the first such comma.  `acc` holds the scanned prefix reversed. -/
def convGo (acc : List Char) : List Char → Option (List Char × List Char)
  | [] => none
  | c :: t =>
    if c = ',' then
      let name := rtrimC acc.reverse
      let date := ltrimC t
      if name ≠ [] ∧ ¬ name.contains '\n' ∧ date ≠ [] ∧ ¬ date.contains '\n'
      then some (name, date)
      else convGo (c :: acc) t
    else convGo (c :: acc) t

/-- _RE_CONVERSATIONAL match from the start of the stripped string. -/
def convMatch (t : List Char) : Option (List Char × List Char) := convGo [] t

/-- Error message for a malformed structured subscriber id. -/
def msgSub9 : String := "subscriber_id must be exactly 9 digits."

/-- Error message for a malformed structured suffix. -/
def msgSuf2 : String := "suffix (member_id) must be exactly 2 digits."

/-- Error message for a malformed structured member id. -/
def msgMember : String :=
  "member_id must be " ++ apos ++ "9digits/2digits" ++ apos ++
  " or an 11-digit number."

/-- Error message for a partially populated name scheme. -/
def msgNameDobReq : String :=
  "Name+DOB path requires first_name, last_name, and dob."

/-- Error message for an unparseable or future date of birth. -/
def msgDobFuture : String :=
  "DOB unparseable or in the future. Expected MM-DD-YYYY (or MM/DD/YYYY or YYYY-MM-DD)."

/-- Error message for a too-short structured name. -/
def msgNameShort : String := "Name must include at least first and last name."

/-- Error message for a dict with no usable fields. -/
def msgDictMissing : String :=
  "Dict input missing required fields. Provide member/subscriber OR first_name+last_name+dob OR a raw text message."

/-- Error message for a too-short conversational name. -/
def msgNameShortConv : String :=
  "Name must include at least first and last name (e.g., " ++ apos ++
  "Raja Panda, 04-22-1980" ++ apos ++ ")."

/-- The final not-recognized message of the string branch. -/
def msgNotRecognized : String :=
  "Input not recognized. Allowed formats: " ++ apos ++ "#########/##" ++
  apos ++ " or " ++ apos ++ "First Last, MM-DD-YYYY" ++ apos ++
  " (comma required)."

/-- Error message for inputs that are neither strings nor dicts. -/
def msgUnsupported : String :=
  "Unsupported input type. Provide either a string or a dict-like object."

/-- The value of a Python variable known to hold a string (safe because the
branch is guarded by truthiness or an isinstance check). -/
def getD : Option String → String
  | some s => s
  | none => ""

/-- The string branch of validate_input of src/validator.py: strip, try the
anchored slash ID, the anchored eleven-digit ID, then the conversational
name-comma-date pattern, else the guidance error. -/
def validateStr (today : Date) (s : String) : Res :=
  let t := trimC s.data
  match anchoredIdSlash t with
  | some (a, b) => okR (Payload.idRec ⟨a⟩ ⟨b⟩ ⟨a ++ '/' :: b⟩)
  | none =>
    if anchored11 t then
      okR (Payload.idRec ⟨t.take 9⟩ ⟨t.drop 9⟩ ⟨t.take 9 ++ '/' :: t.drop 9⟩)
    else
      match convMatch t with
      | some (nm, dt) =>
        match splitName nm with
        | none => errR msgNameShortConv
        | some (first, last) =>
          match normalizeDob today ⟨dt⟩ with
          | none => errR msgDobFuture
          | some dob =>
            okR (Payload.nameDob ⟨first⟩ ⟨last⟩ ⟨displayOf first last⟩ dob)
      | none => errR msgNotRecognized

/-- The dict branch of validate_input of src/validator.py: explicit
subscriber+suffix pair first, then a member field, then the structured
name+dob triple, then the embedded free-text fallback, else the
missing-fields error. -/
def validateDict (today : Date) (d : Dct) : Res :=
  let subscriber := pyOr (pyOr d.subscriber_id d.subscriberId) d.subscriber
  let suffix := pyOr (pyOr d.suffix d.member_suffix) d.suffix_id
  let member := pyOr (pyOr d.member_id d.memberId) d.member
  if truthyO subscriber ∧ truthyO suffix then
    let subS := trimC (getD subscriber).data
    let sufS := trimC (getD suffix).data
    if ¬ (subS.length = 9 ∧ subS.all isDigitC) then errR msgSub9
    else if ¬ (sufS.length = 2 ∧ sufS.all isDigitC) then errR msgSuf2
    else okR (Payload.idRec ⟨subS⟩ ⟨sufS⟩ ⟨subS ++ '/' :: sufS⟩)
  else if truthyO member then
    let m := trimC (getD member).data
    match anchoredIdSlash m with
    | some (a, b) => okR (Payload.idRec ⟨a⟩ ⟨b⟩ ⟨a ++ '/' :: b⟩)
    | none =>
      if anchored11 m then
        okR (Payload.idRec ⟨m.take 9⟩ ⟨m.drop 9⟩ ⟨m.take 9 ++ '/' :: m.drop 9⟩)
      else errR msgMember
  else
    let fn := pyOr (pyOr d.first_name d.firstName) d.fname
    let ln := pyOr (pyOr d.last_name d.lastName) d.lname
    let dob := pyOr (pyOr d.dob d.date_of_birth) d.birthdate
    if truthyO fn ∨ truthyO ln ∨ truthyO dob then
      if ¬ (truthyO fn ∧ truthyO ln ∧ truthyO dob) then errR msgNameDobReq
      else
        match normalizeDob today (getD dob) with
        | none => errR msgDobFuture
        | some norm =>
          match splitName ((getD fn).data ++ ' ' :: (getD ln).data) with
          | none => errR msgNameShort
          | some (first, last) =>
            okR (Payload.nameDob ⟨first⟩ ⟨last⟩ ⟨displayOf first last⟩ norm)
    else
      match pyOr (pyOr d.text d.query) d.message with
      | some t => validateStr today t
      | none => errR msgDictMissing

/-- validate_input of src/validator.py: dict inputs go to the dict branch,
strings to the string branch, anything else to the unsupported-type error. -/
def validate (today : Date) (inp : RawInput) : Res :=
  match inp with
  | RawInput.dict d => validateDict today d
  | RawInput.text s => validateStr today s
  | RawInput.other => errR msgUnsupported

end VStrict

/-- Rendering of a date in the month-day-year hyphen convention with
zero-padded two-digit month and day and four-digit year; this is also the
canonical output convention (`renderCanonical`). -/
def renderMDYh (y m d : Nat) : List Char :=
  pad2 m ++ '-' :: (pad2 d ++ '-' :: pad4 y)

/-- Rendering in the month-day-year slash convention. -/
def renderMDYs (y m d : Nat) : List Char :=
  pad2 m ++ '/' :: (pad2 d ++ '/' :: pad4 y)

/-- Rendering in the year-month-day hyphen convention. -/
def renderYMDh (y m d : Nat) : List Char :=
  pad4 y ++ '-' :: (pad2 m ++ '-' :: pad2 d)

/-- The parse phase of DOB normalization in isolation: the three accepted
conventions in fixed order, then a single retry with every slash rewritten
to a hyphen. -/
def parseWithRetry (raw : String) : Option Date :=
  let s := trimC raw.data
  (tryFormats s).orElse fun _ => tryFormats (slashToHyphen s)

/-- A nine-digit run immediately followed by a slash or backslash and a
two-digit run occurs somewhere in the list. -/
def IdOcc (l : List Char) : Prop :=
  ∃ a sep b, a.length = 9 ∧ a.all isDigitC = true ∧ (sep = '/' ∨ sep = '\\') ∧
    b.length = 2 ∧ b.all isDigitC = true ∧ (a ++ sep :: b) <:+: l

/-- An eleven-digit run occurs somewhere in the list. -/
def Digit11Occ (l : List Char) : Prop :=
  ∃ run : List Char, run.length = 11 ∧ run.all isDigitC = true ∧ run <:+: l

/-- Boolean check for eleven digits at the head of the list. -/
def d11At (l : List Char) : Bool :=
  (l.take 11).length = 11 && (l.take 11).all isDigitC

/-- Boolean scanner for an eleven-digit run anywhere in the list. -/
def find11 : List Char → Bool
  | [] => false
  | c :: t => d11At (c :: t) || find11 t

/-- A fixed reference value of the current date, used to instantiate
witnesses. -/
def todayRef : Date := ⟨2025, 10, 12⟩

/-- A dict input holding both a complete structured ID pair and an embedded
free-text field that itself encodes a different ID. -/
def dictBoth : Dct :=
  { subscriber_id := some ("123456789"), suffix := some ("00"),
    text := some ("987654321/11") }

/-- A dict input with a partial name scheme (only a first name) alongside a
valid embedded free-text field. -/
def dictPartialName : Dct :=
  { fname := some ("John"), text := some ("050028449/00") }

/-- The parse phase fails on empty input. -/
theorem tryFormats_nil : tryFormats [] = none := rfl

/-- DOB normalization succeeds exactly when the parse phase (three
conventions in order, then the slash-rewrite retry) yields a real calendar
date that is not after today. -/
theorem normalizeDob_isSome_iff (today : Date) (raw : String) :
    (normalizeDob today raw).isSome = true ↔
      ∃ dt, parseWithRetry raw = some dt ∧ dateLtB today dt = false := by
  unfold normalizeDob parseWithRetry
  by_cases hs : trimC raw.data = []
  · rw [hs, if_pos rfl]
    rw [show ((tryFormats ([] : List Char)).orElse fun _ =>
        tryFormats (slashToHyphen ([] : List Char))) = none from rfl]
    simp
  · rw [if_neg hs]
    cases hp : (tryFormats (trimC raw.data)).orElse
        fun _ => tryFormats (slashToHyphen (trimC raw.data)) with
    | none => simp
    | some dt =>
      change (if dateLtB today dt = true then none
        else some (⟨renderCanonical dt⟩ : String)).isSome = true ↔ _
      by_cases hlt : dateLtB today dt = true
      · rw [if_pos hlt]
        simp only [Option.isSome_none, Bool.false_eq_true, false_iff]
        rintro ⟨dt2, hdt2, hlt2⟩
        obtain rfl : dt = dt2 := by injection hdt2
        rw [hlt] at hlt2
        cases hlt2
      · rw [if_neg hlt]
        simp only [Option.isSome_some, true_iff]
        refine ⟨dt, rfl, ?_⟩
        revert hlt
        cases dateLtB today dt <;> simp

/-- C5: date normalization succeeds exactly when the input parses, under one
of the accepted conventions tried in fixed order (directly or after the
single slash-to-hyphen retry), as a real calendar date not after the current
date; for a current date on or after 2016-02-29 and strictly before
2999-12-31, the impossible days 02-30-1990 and 04-31-1990 fail, the leap
day 02-29-2016 succeeds, the non-leap 02-29-2015 fails, and the future date
12-31-2999 fails. -/
theorem claim_C5 (today : Date)
    (h1 : dateLtB today ⟨2016, 2, 29⟩ = false)
    (h2 : dateLtB today ⟨2999, 12, 31⟩ = true) :
    normalizeDob today ("02-30-1990") = none ∧
    normalizeDob today ("04-31-1990") = none ∧
    normalizeDob today ("02-29-2016") = some ("02-29-2016") ∧
    normalizeDob today ("02-29-2015") = none ∧
    normalizeDob today ("12-31-2999") = none ∧
    (∀ raw : String, (normalizeDob today raw).isSome = true ↔
      ∃ dt, parseWithRetry raw = some dt ∧ dateLtB today dt = false) := by
  refine ⟨rfl, rfl, ?_, rfl, ?_, normalizeDob_isSome_iff today⟩
  · have e : normalizeDob today ("02-29-2016") =
        if dateLtB today ⟨2016, 2, 29⟩ = true then none
        else some ("02-29-2016") := rfl
    rw [e, h1]
    rfl
  · have e : normalizeDob today ("12-31-2999") =
        if dateLtB today ⟨2999, 12, 31⟩ = true then none
        else some ("12-31-2999") := rfl
    rw [e, h2]
    rfl

/-- Witness for C5 at the reference current date. -/
theorem claim_C5_witness :
    dateLtB todayRef ⟨2016, 2, 29⟩ = false ∧
    dateLtB todayRef ⟨2999, 12, 31⟩ = true ∧
    normalizeDob todayRef ("02-29-2016") = some ("02-29-2016") ∧
    normalizeDob todayRef ("02-30-1990") = none :=
  ⟨by decide, by decide,
   (claim_C5 todayRef (by decide) (by decide)).2.2.1,
   (claim_C5 todayRef (by decide) (by decide)).1⟩

/-- C3: the CSV-style comma-delimited form and the conversational
space-plus-comma form of the same name and birthdate both validate (in
src/vlad3=5.py, whose _RE_NAME_SIMPLE accepts both) to the same
method="name_dob" record with lower-cased names and the canonical
hyphenated date. -/
theorem claim_C3 (today : Date) (h : dateLtB today ⟨1990, 1, 31⟩ = false) :
    V35.validate today (RawInput.text ("John,Doe,01-31-1990")) =
      okR (Payload.nameDob ("john") ("doe") ("John Doe") ("01-31-1990")) ∧
    V35.validate today (RawInput.text ("John Doe, 01/31/1990")) =
      okR (Payload.nameDob ("john") ("doe") ("John Doe") ("01-31-1990")) := by
  constructor
  · have e1 : V35.validate today (RawInput.text ("John,Doe,01-31-1990")) =
        (match normalizeDob today ("01-31-1990") with
         | none => errR V35.msgDobInvalid
         | some dob =>
           okR (Payload.nameDob ("john") ("doe") ("John Doe") dob)) := rfl
    have e2 : normalizeDob today ("01-31-1990") =
        if dateLtB today ⟨1990, 1, 31⟩ = true then none
        else some ("01-31-1990") := rfl
    rw [e1, e2, h]
    rfl
  · have e1 : V35.validate today (RawInput.text ("John Doe, 01/31/1990")) =
        (match normalizeDob today ("01/31/1990") with
         | none => errR V35.msgDobInvalid
         | some dob =>
           okR (Payload.nameDob ("john") ("doe") ("John Doe") dob)) := rfl
    have e2 : normalizeDob today ("01/31/1990") =
        if dateLtB today ⟨1990, 1, 31⟩ = true then none
        else some ("01-31-1990") := rfl
    rw [e1, e2, h]
    rfl

/-- Witness for C3 at the reference current date. -/
theorem claim_C3_witness :
    dateLtB todayRef ⟨1990, 1, 31⟩ = false ∧
    V35.validate todayRef (RawInput.text ("John,Doe,01-31-1990")) =
      okR (Payload.nameDob ("john") ("doe") ("John Doe") ("01-31-1990")) ∧
    V35.validate todayRef (RawInput.text ("John Doe, 01/31/1990")) =
      okR (Payload.nameDob ("john") ("doe") ("John Doe") ("01-31-1990")) :=
  ⟨by decide, (claim_C3 todayRef (by decide)).1, (claim_C3 todayRef (by decide)).2⟩

/-- C7: the messy conversational input succeeds through the tolerant path of
src/vlad3=5.py: the date substring 1980-08-08 anchors extraction, the last
two comma-separated segments before it form the name candidate, the filler
phrase "give me details of" and the standalone honorific tokens SUBSCRIBER
and JR are stripped (SR. and ESQ survive glued to their neighbouring name
cores, with dot and question mark punctuation removed), and the result is a
non-empty name pair with dob 08-08-1980. -/
theorem claim_C7 (today : Date) (h : dateLtB today ⟨1980, 8, 8⟩ = false) :
    V35.validate today (RawInput.text
        (" give me details of SUBSCRIBER SR.SASTIPROPERT, JR IERONIMIDES?ESQ, 1980-08-08")) =
      okR (Payload.nameDob ("srsastipropert") ("ieronimidesesq")
        ("Srsastipropert Ieronimidesesq") ("08-08-1980")) ∧
    ("srsastipropert" : String) ≠ "" ∧ ("ieronimidesesq" : String) ≠ "" := by
  refine ⟨?_, by decide, by decide⟩
  have e1 : V35.validate today (RawInput.text
      (" give me details of SUBSCRIBER SR.SASTIPROPERT, JR IERONIMIDES?ESQ, 1980-08-08")) =
      (match normalizeDob today ("1980-08-08") with
       | none => errR V35.msgDobInvalid
       | some dob => okR (Payload.nameDob ("srsastipropert") ("ieronimidesesq")
           ("Srsastipropert Ieronimidesesq") dob)) := rfl
  have e2 : normalizeDob today ("1980-08-08") =
      if dateLtB today ⟨1980, 8, 8⟩ = true then none
      else some ("08-08-1980") := rfl
  rw [e1, e2, h]
  rfl

/-- Witness for C7 at the reference current date. -/
theorem claim_C7_witness :
    dateLtB todayRef ⟨1980, 8, 8⟩ = false ∧
    V35.validate todayRef (RawInput.text
        (" give me details of SUBSCRIBER SR.SASTIPROPERT, JR IERONIMIDES?ESQ, 1980-08-08")) =
      okR (Payload.nameDob ("srsastipropert") ("ieronimidesesq")
        ("Srsastipropert Ieronimidesesq") ("08-08-1980")) :=
  ⟨by decide, (claim_C7 todayRef (by decide)).1⟩

/-- A digit character is not a slash, backslash or newline. -/
theorem isDigitC_ne_special (c : Char) (h : isDigitC c = true) :
    ¬ c = '/' ∧ ¬ c = '\\' ∧ isWsC c = false := by
  unfold isDigitC at h
  simp only [Bool.and_eq_true, decide_eq_true_eq] at h
  refine ⟨?_, ?_, ?_⟩
  · rintro rfl
    exact absurd h (by decide)
  · rintro rfl
    exact absurd h (by decide)
  · unfold isWsC
    simp only [Bool.or_eq_false_iff, decide_eq_false_iff_not]
    omega

/-- C2 counterexample: the 11-digit run 05002844900 occurs inside the text
"id 05002844900", yet validate_input of src/validator.py fails on it with
the not-recognized error (whereas the claim predicts an id-method success),
because its eleven-digit pattern is anchored to the whole stripped string. -/
theorem claim_C2_counterexample :
    Digit11Occ (String.data ("id 05002844900")) ∧
    VStrict.validate todayRef (RawInput.text ("id 05002844900")) =
      errR VStrict.msgNotRecognized := by
  constructor
  · exact ⟨String.data ("05002844900"), by decide, by decide,
      String.data ("id "), [], by decide⟩
  · decide

/-- C2 amended: a string whose entire content after stripping surrounding
whitespace is an eleven-digit run (rather than one merely containing such a
run) validates to the id method with the first nine digits as subscriber and
the last two as member. -/
theorem claim_C2_amended (today : Date) (s : String)
    (h11 : (trimC s.data).length = 11) (hdig : (trimC s.data).all isDigitC = true) :
    VStrict.validate today (RawInput.text s) =
      okR (Payload.idRec ⟨(trimC s.data).take 9⟩ ⟨(trimC s.data).drop 9⟩
        ⟨(trimC s.data).take 9 ++ '/' :: (trimC s.data).drop 9⟩) := by
  have hall : ∀ c ∈ trimC s.data, isDigitC c = true := by
    simpa [List.all_eq_true] using hdig
  have hslash : VStrict.anchoredIdSlash (trimC s.data) = none := by
    unfold VStrict.anchoredIdSlash
    rcases hd : (trimC s.data).drop 9 with _ | ⟨c1, r⟩
    · have := congrArg List.length hd
      simp [List.length_drop, h11] at this
    · have hc1 : c1 ∈ trimC s.data := by
        have : c1 ∈ (trimC s.data).drop 9 := by rw [hd]; exact List.mem_cons_self _ _
        exact List.mem_of_mem_drop this
      obtain ⟨hn1, hn2, _⟩ := isDigitC_ne_special c1 (hall c1 hc1)
      simp only []
      rw [if_pos]
      · rw [if_neg]
        rintro ⟨hsep, -⟩
        rcases hsep with hsep | hsep
        · exact hn1 hsep
        · exact hn2 hsep
      · constructor
        · simp [List.length_take, h11]
        · simp only [List.all_eq_true]
          intro c hc
          exact hall c (List.mem_of_mem_take hc)
  have h11b : VStrict.anchored11 (trimC s.data) = true := by
    unfold VStrict.anchored11
    simp [h11, hdig]
  show VStrict.validateStr today s = _
  unfold VStrict.validateStr
  simp [hslash, h11b]

/-- Witness for the amended C2 on a bare eleven-digit input. -/
theorem claim_C2_amended_witness :
    (trimC (String.data ("05002844900"))).length = 11 ∧
    (trimC (String.data ("05002844900"))).all isDigitC = true ∧
    VStrict.validate todayRef (RawInput.text ("05002844900")) =
      okR (Payload.idRec ("050028449") ("00") ("050028449/00")) := by
  refine ⟨by decide, by decide, ?_⟩
  have h := claim_C2_amended todayRef ("05002844900") (by decide) (by decide)
  rw [h]
  rfl

/-- C8 counterexample: a dict holding both a complete structured ID pair and
an embedded free-text field is resolved from the structured fields, not by
recursing into the text (the claim predicts the text field is searched
first, which would give a different identifier here). -/
theorem claim_C8_counterexample :
    VStrict.validate todayRef (RawInput.dict dictBoth) =
      okR (Payload.idRec ("123456789") ("00") ("123456789/00")) ∧
    VStrict.validate todayRef (RawInput.text ("987654321/11")) =
      okR (Payload.idRec ("987654321") ("11") ("987654321/11")) ∧
    VStrict.validate todayRef (RawInput.dict dictBoth) ≠
      VStrict.validate todayRef (RawInput.text ("987654321/11")) :=
  ⟨by decide, by decide, by decide⟩

/-- C8 amended: structured identity fields are inspected first; the embedded
free-text field is consulted only when no structured identity field is
usable (no truthy subscriber+suffix pair, no truthy member field, and no
truthy name-scheme field), and then the result equals text-based detection
applied recursively to the embedded text value. -/
theorem claim_C8_amended (today : Date) (d : Dct) (t : String)
    (hs : ¬ (truthyO (pyOr (pyOr d.subscriber_id d.subscriberId) d.subscriber) = true ∧
        truthyO (pyOr (pyOr d.suffix d.member_suffix) d.suffix_id) = true))
    (hm : truthyO (pyOr (pyOr d.member_id d.memberId) d.member) = false)
    (hf : truthyO (pyOr (pyOr d.first_name d.firstName) d.fname) = false)
    (hl : truthyO (pyOr (pyOr d.last_name d.lastName) d.lname) = false)
    (hd : truthyO (pyOr (pyOr d.dob d.date_of_birth) d.birthdate) = false)
    (ht : pyOr (pyOr d.text d.query) d.message = some t) :
    VStrict.validate today (RawInput.dict d) =
      VStrict.validate today (RawInput.text t) := by
  show VStrict.validateDict today d = VStrict.validateStr today t
  simp only [VStrict.validateDict]
  rw [if_neg hs, if_neg (by simp [hm]), if_neg (by simp [hf, hl, hd]), ht]

/-- Witness for the amended C8: a dict holding only an embedded text field
resolves exactly as the text itself. -/
theorem claim_C8_amended_witness :
    VStrict.validate todayRef
        (RawInput.dict { text := some ("John Doe, 01/31/1990") }) =
      VStrict.validate todayRef (RawInput.text ("John Doe, 01/31/1990")) :=
  claim_C8_amended todayRef { text := some ("John Doe, 01/31/1990") }
    ("John Doe, 01/31/1990") (by decide) (by decide) (by decide) (by decide)
    (by decide) (by decide)

/-- C10: a dict with no usable ID fields whose name scheme is only partially
populated fails with the name-path missing-field error, never reaching the
embedded free-text fallback, whatever the text/query/message fields hold. -/
theorem claim_C10 (today : Date) (d : Dct)
    (hs : ¬ (truthyO (pyOr (pyOr d.subscriber_id d.subscriberId) d.subscriber) = true ∧
        truthyO (pyOr (pyOr d.suffix d.member_suffix) d.suffix_id) = true))
    (hm : truthyO (pyOr (pyOr d.member_id d.memberId) d.member) = false)
    (hpart : truthyO (pyOr (pyOr d.first_name d.firstName) d.fname) = true ∨
        truthyO (pyOr (pyOr d.last_name d.lastName) d.lname) = true ∨
        truthyO (pyOr (pyOr d.dob d.date_of_birth) d.birthdate) = true)
    (hnotall : ¬ (truthyO (pyOr (pyOr d.first_name d.firstName) d.fname) = true ∧
        truthyO (pyOr (pyOr d.last_name d.lastName) d.lname) = true ∧
        truthyO (pyOr (pyOr d.dob d.date_of_birth) d.birthdate) = true)) :
    VStrict.validate today (RawInput.dict d) = errR VStrict.msgNameDobReq := by
  show VStrict.validateDict today d = _
  simp only [VStrict.validateDict]
  rw [if_neg hs, if_neg (by simp [hm]), if_pos hpart, if_pos hnotall]

/-- Witness for C10: a dict with only a first name and an otherwise valid
embedded text field still fails with the name-path error. -/
theorem claim_C10_witness :
    VStrict.validate todayRef (RawInput.dict dictPartialName) =
      errR VStrict.msgNameDobReq :=
  claim_C10 todayRef dictPartialName (by decide) (by decide)
    (Or.inl (by decide)) (by decide)

/-- Every return of validate_input of src/validator.py is a complete success
triple or a complete failure triple. -/
theorem vstrict_shape (today : Date) (inp : RawInput) :
    (∃ p, VStrict.validate today inp = okR p) ∨
    (∃ e, VStrict.validate today inp = errR e) := by
  cases inp with
  | text s =>
    show (∃ p, VStrict.validateStr today s = okR p) ∨
      (∃ e, VStrict.validateStr today s = errR e)
    simp only [VStrict.validateStr]
    repeat' split
    all_goals first
      | exact Or.inl ⟨_, rfl⟩
      | exact Or.inr ⟨_, rfl⟩
  | dict d =>
    show (∃ p, VStrict.validateDict today d = okR p) ∨
      (∃ e, VStrict.validateDict today d = errR e)
    simp only [VStrict.validateDict, VStrict.validateStr]
    repeat' split
    all_goals first
      | exact Or.inl ⟨_, rfl⟩
      | exact Or.inr ⟨_, rfl⟩
  | other => exact Or.inr ⟨_, rfl⟩

/-- Every return of validate_input of src/vlad3=5.py is a complete success
triple or a complete failure triple. -/
theorem v35_shape (today : Date) (inp : RawInput) :
    (∃ p, V35.validate today inp = okR p) ∨
    (∃ e, V35.validate today inp = errR e) := by
  cases inp with
  | text s =>
    simp only [V35.validate]
    repeat' split
    all_goals first
      | exact Or.inl ⟨_, rfl⟩
      | exact Or.inr ⟨_, rfl⟩
  | dict d => exact Or.inr ⟨_, rfl⟩
  | other => exact Or.inr ⟨_, rfl⟩

/-- C9: both validators are total functions of their input (the embeddings
are Lean functions, so every call returns normally), and their result is
exactly one of success with a payload and no error, or failure with an error
and no payload: the payload is present exactly when the valid flag is true
and the error exactly when it is false, for every string, dict, or
other-typed input. -/
theorem claim_C9 (today : Date) (inp : RawInput) :
    ((VStrict.validate today inp).2.1.isSome = (VStrict.validate today inp).1 ∧
     (VStrict.validate today inp).2.2.isNone = (VStrict.validate today inp).1) ∧
    ((V35.validate today inp).2.1.isSome = (V35.validate today inp).1 ∧
     (V35.validate today inp).2.2.isNone = (V35.validate today inp).1) := by
  constructor
  · rcases vstrict_shape today inp with ⟨p, hp⟩ | ⟨e, he⟩
    · rw [hp]; exact ⟨rfl, rfl⟩
    · rw [he]; exact ⟨rfl, rfl⟩
  · rcases v35_shape today inp with ⟨p, hp⟩ | ⟨e, he⟩
    · rw [hp]; exact ⟨rfl, rfl⟩
    · rw [he]; exact ⟨rfl, rfl⟩

/-- An infix made of non-whitespace characters survives a leading
whitespace strip. -/
theorem infix_dropWhile_of_no_ws (mid : List Char) (hne : mid ≠ [])
    (hmid : ∀ c ∈ mid, isWsC c = false) :
    ∀ l : List Char, mid <:+: l → mid <:+: l.dropWhile isWsC := by
  intro l
  induction l with
  | nil =>
    intro h
    rw [List.infix_nil] at h
    exact absurd h hne
  | cons c t ih =>
    intro h
    by_cases hc : isWsC c = true
    · rw [List.dropWhile_cons_of_pos hc]
      apply ih
      obtain ⟨pre, post, hsplit⟩ := h
      cases pre with
      | nil =>
        cases mid with
        | nil => exact absurd rfl hne
        | cons m ms =>
          simp only [List.nil_append, List.cons_append, List.cons.injEq] at hsplit
          have hm : isWsC m = false := hmid m (List.mem_cons_self m ms)
          rw [hsplit.1] at hm
          rw [hm] at hc
          cases hc
      | cons p ps =>
        simp only [List.cons_append, List.cons.injEq] at hsplit
        exact ⟨ps, post, hsplit.2⟩
    · rw [List.dropWhile_cons_of_neg hc]
      exact h


/-- An infix made of non-whitespace characters survives a full strip. -/
theorem infix_trimC_of_no_ws (mid l : List Char) (hne : mid ≠ [])
    (hmid : ∀ c ∈ mid, isWsC c = false) (h : mid <:+: l) :
    mid <:+: trimC l := by
  have h1 : mid <:+: l.dropWhile isWsC := infix_dropWhile_of_no_ws mid hne hmid l h
  have h2 : mid.reverse <:+: (l.dropWhile isWsC).reverse := List.reverse_infix.mpr h1
  have hne2 : mid.reverse ≠ [] := by simpa using hne
  have hmid2 : ∀ c ∈ mid.reverse, isWsC c = false := fun c hc =>
    hmid c (List.mem_reverse.mp hc)
  have h3 := infix_dropWhile_of_no_ws mid.reverse hne2 hmid2 _ h2
  have h4 := List.reverse_infix.mpr h3
  have e : trimC l = ((l.dropWhile isWsC).reverse.dropWhile isWsC).reverse := rfl
  rw [e]
  simpa using h4

/-- The stripped string is an infix of the original. -/
theorem trimC_within (l : List Char) : trimC l <:+: l :=
  (List.rdropWhile_prefix isWsC (ltrimC l)).isInfix.trans
    (List.dropWhile_suffix isWsC).isInfix

/-- A successful head match of the unanchored ID pattern on a list known to
start with the pattern. -/
theorem idSlashAt_eq_of_split (a b post : List Char) (sep : Char)
    (ha : a.length = 9) (hda : a.all isDigitC = true)
    (hsep : sep = '/' ∨ sep = '\\')
    (hb : b.length = 2) (hdb : b.all isDigitC = true) :
    V35.idSlashAt (a ++ sep :: (b ++ post)) = some (a, b) := by
  have ht : (a ++ sep :: (b ++ post)).take 9 = a := by
    rw [← ha]; exact List.take_left a (sep :: (b ++ post))
  have hd : (a ++ sep :: (b ++ post)).drop 9 = sep :: (b ++ post) := by
    rw [← ha]; exact List.drop_left a (sep :: (b ++ post))
  have htb : (b ++ post).take 2 = b := by
    rw [← hb]; exact List.take_left b post
  simp only [V35.idSlashAt, ht, hd, htb]
  rw [if_pos ⟨ha, hda⟩, if_pos hsep, if_pos ⟨hb, hdb⟩]

/-- The scanner finds a match when the pattern occurs at a known split. -/
theorem findIdSlash_isSome_of_split : ∀ (pre a b post : List Char) (sep : Char),
    a.length = 9 → a.all isDigitC = true → (sep = '/' ∨ sep = '\\') →
    b.length = 2 → b.all isDigitC = true →
    (V35.findIdSlash (pre ++ (a ++ sep :: (b ++ post)))).isSome = true := by
  intro pre
  induction pre with
  | nil =>
    intro a b post sep ha hda hsep hb hdb
    cases a with
    | nil => simp at ha
    | cons a0 as =>
      show (V35.findIdSlash (a0 :: (as ++ sep :: (b ++ post)))).isSome = true
      simp only [V35.findIdSlash]
      have he : V35.idSlashAt (a0 :: (as ++ sep :: (b ++ post))) = some (a0 :: as, b) := by
        have := idSlashAt_eq_of_split (a0 :: as) b post sep ha hda hsep hb hdb
        simpa using this
      rw [he]
      rfl
  | cons p ps ih =>
    intro a b post sep ha hda hsep hb hdb
    show (V35.findIdSlash (p :: (ps ++ (a ++ sep :: (b ++ post))))).isSome = true
    simp only [V35.findIdSlash]
    cases hat : V35.idSlashAt (p :: (ps ++ (a ++ sep :: (b ++ post)))) with
    | some r => simp
    | none => simpa using ih a b post sep ha hda hsep hb hdb

/-- The scanner finds a match when the pattern occurs anywhere. -/
theorem findIdSlash_isSome_of_IdOcc (l : List Char) (h : IdOcc l) :
    (V35.findIdSlash l).isSome = true := by
  obtain ⟨a, sep, b, ha, hda, hsep, hb, hdb, pre, post, hsplit⟩ := h
  have e : pre ++ (a ++ sep :: b) ++ post = pre ++ (a ++ sep :: (b ++ post)) := by
    simp [List.append_assoc]
  rw [← hsplit, e]
  exact findIdSlash_isSome_of_split pre a b post sep ha hda hsep hb hdb

/-- What a successful head match of the unanchored ID pattern guarantees. -/
theorem idSlashAt_sound (l a b : List Char) (h : V35.idSlashAt l = some (a, b)) :
    a.length = 9 ∧ a.all isDigitC = true ∧ b.length = 2 ∧ b.all isDigitC = true ∧
    ∃ sep post, (sep = '/' ∨ sep = '\\') ∧ l = a ++ sep :: (b ++ post) := by
  simp only [V35.idSlashAt] at h
  split at h
  case isTrue h9 =>
    split at h
    case h_1 sep rest heq =>
      split at h
      case isTrue hsep =>
        split at h
        case isTrue h2 =>
          injection h with h'
          cases h'
          refine ⟨h9.1, h9.2, h2.1, h2.2, sep, rest.drop 2, hsep, ?_⟩
          calc l = l.take 9 ++ l.drop 9 := (List.take_append_drop 9 l).symm
            _ = l.take 9 ++ (sep :: rest) := by rw [heq]
            _ = l.take 9 ++ sep :: (rest.take 2 ++ rest.drop 2) := by
                rw [List.take_append_drop 2 rest]
        case isFalse _ => cases h
      case isFalse _ => cases h
    case h_2 => cases h
  case isFalse _ => cases h

/-- What any successful scan of the unanchored ID pattern guarantees: the
captured groups are a nine-digit and a two-digit run and the matched text is
an infix of the scanned list. -/
theorem findIdSlash_sound : ∀ (l a b : List Char),
    V35.findIdSlash l = some (a, b) →
    a.length = 9 ∧ a.all isDigitC = true ∧ b.length = 2 ∧ b.all isDigitC = true ∧
    ∃ sep, (sep = '/' ∨ sep = '\\') ∧ (a ++ sep :: b) <:+: l := by
  intro l
  induction l with
  | nil =>
    intro a b h
    simp [V35.findIdSlash] at h
  | cons c t ih =>
    intro a b h
    simp only [V35.findIdSlash] at h
    cases hat : V35.idSlashAt (c :: t) with
    | some r =>
      rw [hat] at h
      obtain rfl : r = (a, b) := by
        cases r with
        | mk x y => exact Option.some.inj h
      obtain ⟨ha, hda, hb, hdb, sep, post, hsep, hsplit⟩ := idSlashAt_sound _ a b hat
      refine ⟨ha, hda, hb, hdb, sep, hsep, ?_⟩
      refine ⟨[], post, ?_⟩
      rw [hsplit]
      simp [List.append_assoc]
    | none =>
      rw [hat] at h
      obtain ⟨ha, hda, hb, hdb, sep, hsep, hinf⟩ := ih a b h
      exact ⟨ha, hda, hb, hdb, sep, hsep, List.infix_cons hinf⟩

/-- C1: every free-text input containing, anywhere in the text, a nine-digit
run immediately followed by a slash or backslash and a two-digit run is
accepted by validate_input of src/vlad3=5.py with method="id": the
subscriber id is a nine-digit run and the member id a two-digit run matched
from the text, and full_id rejoins them with a forward slash regardless of
the original separator. -/
theorem claim_C1 (today : Date) (s : String) (h : IdOcc s.data) :
    ∃ a b sep, (sep = '/' ∨ sep = '\\') ∧ a.length = 9 ∧ a.all isDigitC = true ∧
      b.length = 2 ∧ b.all isDigitC = true ∧ (a ++ sep :: b) <:+: s.data ∧
      V35.validate today (RawInput.text s) =
        okR (Payload.idRec ⟨a⟩ ⟨b⟩ ⟨a ++ '/' :: b⟩) := by
  have hocc : IdOcc (trimC s.data) := by
    obtain ⟨a, sep, b, ha, hda, hsep, hb, hdb, hinf⟩ := h
    have hne : a ++ sep :: b ≠ [] := by simp
    have hnws : ∀ c ∈ a ++ sep :: b, isWsC c = false := by
      intro c hc
      rcases List.mem_append.mp hc with hca | hcs
      · exact (isDigitC_ne_special c (by
          have := (List.all_eq_true.mp hda) c hca
          simpa using this)).2.2
      · rcases List.mem_cons.mp hcs with rfl | hcb
        · rcases hsep with rfl | rfl <;> decide
        · exact (isDigitC_ne_special c (by
            have := (List.all_eq_true.mp hdb) c hcb
            simpa using this)).2.2
    exact ⟨a, sep, b, ha, hda, hsep, hb, hdb,
      infix_trimC_of_no_ws _ _ hne hnws hinf⟩
  have hsome := findIdSlash_isSome_of_IdOcc _ hocc
  obtain ⟨⟨a, b⟩, hfind⟩ := Option.isSome_iff_exists.mp hsome
  obtain ⟨ha, hda, hb, hdb, sep, hsep, hinf⟩ := findIdSlash_sound _ a b hfind
  refine ⟨a, b, sep, hsep, ha, hda, hb, hdb, hinf.trans (trimC_within s.data), ?_⟩
  have hne : trimC s.data ≠ [] := by
    intro h0
    rw [h0, List.infix_nil] at hinf
    have := congrArg List.length hinf
    simp [ha] at this
  simp only [V35.validate]
  rw [if_neg hne, hfind]

/-- Witness for C1 on conversational phrasing around the identifier. -/
theorem claim_C1_witness :
    IdOcc (String.data ("pull up 050028449/00 please")) ∧
    (∃ a b sep, (sep = '/' ∨ sep = '\\') ∧ a.length = 9 ∧ a.all isDigitC = true ∧
      b.length = 2 ∧ b.all isDigitC = true ∧
      (a ++ sep :: b) <:+: String.data ("pull up 050028449/00 please") ∧
      V35.validate todayRef (RawInput.text ("pull up 050028449/00 please")) =
        okR (Payload.idRec ⟨a⟩ ⟨b⟩ ⟨a ++ '/' :: b⟩)) := by
  have hocc : IdOcc (String.data ("pull up 050028449/00 please")) :=
    ⟨String.data ("050028449"), '/', String.data ("00"), by decide, by decide,
     Or.inl rfl, by decide, by decide,
     String.data ("pull up "), String.data (" please"), by decide⟩
  exact ⟨hocc, claim_C1 todayRef ("pull up 050028449/00 please") hocc⟩

/-- What a successful anchored ID match guarantees: the whole stripped
string is the pattern. -/
theorem anchoredIdSlash_sound (t a b : List Char)
    (h : VStrict.anchoredIdSlash t = some (a, b)) :
    a.length = 9 ∧ a.all isDigitC = true ∧ b.length = 2 ∧ b.all isDigitC = true ∧
    ∃ sep, (sep = '/' ∨ sep = '\\') ∧ t = a ++ sep :: b := by
  simp only [VStrict.anchoredIdSlash] at h
  split at h
  case isTrue h9 =>
    split at h
    case h_1 sep rest heq =>
      split at h
      case isTrue hcond =>
        injection h with h'
        cases h'
        refine ⟨h9.1, h9.2, hcond.2.1, hcond.2.2, sep, hcond.1, ?_⟩
        calc t = t.take 9 ++ t.drop 9 := (List.take_append_drop 9 t).symm
          _ = t.take 9 ++ sep :: b := by rw [heq]
      case isFalse _ => cases h
    case h_2 => cases h
  case isFalse _ => cases h

/-- A conversational-pattern match requires a comma in the scanned list. -/
theorem convGo_some_comma : ∀ (l acc : List Char) (r : List Char × List Char),
    VStrict.convGo acc l = some r → ',' ∈ l := by
  intro l
  induction l with
  | nil =>
    intro acc r h
    simp [VStrict.convGo] at h
  | cons c t ih =>
    intro acc r h
    by_cases hc : c = ','
    · rw [hc]
      exact List.mem_cons_self _ _
    · simp only [VStrict.convGo] at h
      rw [if_neg hc] at h
      exact List.mem_cons_of_mem _ (ih _ r h)

/-- The eleven-digit scanner finds a run occurring at a known split. -/
theorem find11_of_split : ∀ (pre run post : List Char), run.length = 11 →
    run.all isDigitC = true → find11 (pre ++ (run ++ post)) = true := by
  intro pre
  induction pre with
  | nil =>
    intro run post h11 hdig
    cases run with
    | nil => simp at h11
    | cons r rs =>
      show find11 (r :: (rs ++ post)) = true
      simp only [find11, Bool.or_eq_true]
      left
      unfold d11At
      have ht : ((r :: rs) ++ post).take 11 = r :: rs := by
        rw [← h11]; exact List.take_left _ _
      rw [show (r :: (rs ++ post)) = (r :: rs) ++ post from rfl, ht]
      simp [h11, hdig]
  | cons p ps ih =>
    intro run post h11 hdig
    show find11 (p :: (ps ++ (run ++ post))) = true
    simp only [find11, Bool.or_eq_true]
    right
    exact ih run post h11 hdig

/-- A failed scan certifies the absence of the nine-slash-two pattern. -/
theorem not_IdOcc_of_findIdSlash_none (l : List Char)
    (h : V35.findIdSlash l = none) : ¬ IdOcc l := by
  intro hocc
  have := findIdSlash_isSome_of_IdOcc l hocc
  rw [h] at this
  cases this

/-- A failed scan certifies the absence of an eleven-digit run. -/
theorem not_Digit11Occ_of_find11_false (l : List Char)
    (h : find11 l = false) : ¬ Digit11Occ l := by
  rintro ⟨run, h11, hdig, pre, post, hsplit⟩
  have e : pre ++ run ++ post = pre ++ (run ++ post) := by
    simp [List.append_assoc]
  have := find11_of_split pre run post h11 hdig
  rw [← e, hsplit, h] at this
  cases this

/-- C6: on validate_input of src/validator.py, every free-text input with no
comma and no embedded ID pattern (neither a nine-digit slash-or-backslash
two-digit sequence nor an eleven-digit run) fails with the not-recognized
guidance error: the two anchored ID regexes can then never match the
stripped string, and the conversational pattern requires a comma. -/
theorem claim_C6 (today : Date) (s : String)
    (hcomma : ¬ (',' ∈ s.data))
    (hid : ¬ IdOcc s.data) (h11 : ¬ Digit11Occ s.data) :
    VStrict.validate today (RawInput.text s) = errR VStrict.msgNotRecognized := by
  have htrim : trimC s.data <:+: s.data := trimC_within s.data
  show VStrict.validateStr today s = _
  simp only [VStrict.validateStr]
  cases hsl : VStrict.anchoredIdSlash (trimC s.data) with
  | some r =>
    exfalso
    obtain ⟨a, b⟩ := r
    obtain ⟨ha, hda, hb, hdb, sep, hsep, hsplit⟩ := anchoredIdSlash_sound _ a b hsl
    refine hid ⟨a, sep, b, ha, hda, hsep, hb, hdb, ?_⟩
    have hself : (a ++ sep :: b) <:+: trimC s.data := by
      rw [hsplit]
    exact hself.trans htrim
  | none =>
    have h11f : ¬ VStrict.anchored11 (trimC s.data) = true := by
      intro h11t
      unfold VStrict.anchored11 at h11t
      simp only [Bool.and_eq_true, decide_eq_true_eq] at h11t
      exact h11 ⟨trimC s.data, h11t.1, h11t.2, htrim⟩
    rw [if_neg h11f]
    cases hcv : VStrict.convMatch (trimC s.data) with
    | some r =>
      exfalso
      have hmem : ',' ∈ trimC s.data := convGo_some_comma _ [] r hcv
      exact hcomma (htrim.sublist.subset hmem)
    | none => rfl

/-- Witness for C6 on a comma-free name-date phrase and on a bare word. -/
theorem claim_C6_witness :
    VStrict.validate todayRef (RawInput.text ("Raja Panda 04-22-1980")) =
      errR VStrict.msgNotRecognized ∧
    VStrict.validate todayRef (RawInput.text ("Raja")) =
      errR VStrict.msgNotRecognized :=
  ⟨claim_C6 todayRef ("Raja Panda 04-22-1980") (by decide)
      (not_IdOcc_of_findIdSlash_none _ (by decide))
      (not_Digit11Occ_of_find11_false _ (by decide)),
   claim_C6 todayRef ("Raja") (by decide)
      (not_IdOcc_of_findIdSlash_none _ (by decide))
      (not_Digit11Occ_of_find11_false _ (by decide))⟩

/-- Digit-rendering characters are decimal digits. -/
theorem isDigitC_dchar (k : Nat) : isDigitC (dchar k) = true := by
  unfold dchar
  split <;> decide

/-- Digit-rendering characters are not whitespace. -/
theorem isWsC_dchar (k : Nat) : isWsC (dchar k) = false := by
  unfold dchar
  split <;> decide

/-- Digit-rendering characters are not hyphens. -/
theorem dchar_ne_hyphen (k : Nat) : ¬ dchar k = '-' := by
  unfold dchar
  split <;> decide

/-- Digit-rendering characters are not slashes. -/
theorem dchar_ne_slash (k : Nat) : ¬ dchar k = '/' := by
  unfold dchar
  split <;> decide

/-- Reading back a rendered digit below ten. -/
theorem digitVal_dchar (k : Nat) (h : k ≤ 9) : digitVal (dchar k) = k := by
  interval_cases k <;> decide

/-- The strptime year directive inverts the four-digit rendering. -/
theorem yParse_pad4 (y : Nat) (r : List Char) (hy : y ≤ 9999) :
    yParse (pad4 y ++ r) = some (y, r) := by
  show yParse (dchar (y / 1000 % 10) :: dchar (y / 100 % 10) ::
    dchar (y / 10 % 10) :: dchar (y % 10) :: r) = some (y, r)
  simp only [yParse]
  rw [if_pos ⟨isDigitC_dchar _, isDigitC_dchar _, isDigitC_dchar _, isDigitC_dchar _⟩]
  rw [digitVal_dchar _ (by omega), digitVal_dchar _ (by omega),
    digitVal_dchar _ (by omega), digitVal_dchar _ (by omega)]
  have : ((y / 1000 % 10 * 10 + y / 100 % 10) * 10 + y / 10 % 10) * 10 + y % 10 = y := by
    omega
  rw [this]

/-- The strptime year directive inverts the four-digit rendering at the end
of the input. -/
theorem yParse_pad4_nil (y : Nat) (hy : y ≤ 9999) :
    yParse (pad4 y) = some (y, []) := by
  have := yParse_pad4 y [] hy
  simpa using this

/-- Month-directive candidates on a rendered month below ten. -/
theorem mCands_pad2_low (m : Nat) (l : List Char) (h1 : 1 ≤ m) (h2 : m ≤ 9) :
    mCands (pad2 m ++ l) = [(m, l)] := by
  interval_cases m <;> rfl

/-- Month-directive candidates on a rendered month of ten to twelve: the
two-digit reading first, then the backtracking one-digit reading. -/
theorem mCands_pad2_high (m : Nat) (l : List Char) (h1 : 10 ≤ m) (h2 : m ≤ 12) :
    mCands (pad2 m ++ l) = [(m, l), (1, dchar (m % 10) :: l)] := by
  interval_cases m <;> rfl

/-- Day-directive candidates on a rendered day below ten. -/
theorem dCands_pad2_low (d : Nat) (l : List Char) (h1 : 1 ≤ d) (h2 : d ≤ 9) :
    dCands (pad2 d ++ l) = [(d, l)] := by
  interval_cases d <;> rfl

/-- Day-directive candidates on a rendered day of ten to thirty-one. -/
theorem dCands_pad2_high (d : Nat) (l : List Char) (h1 : 10 ≤ d) (h2 : d ≤ 31) :
    dCands (pad2 d ++ l) = [(d, l), (d / 10, dchar (d % 10) :: l)] := by
  interval_cases d <;> rfl

/-- Every month-directive candidate on a two-character head consumes one or
two characters. -/
theorem mCands_rest (c1 c2 : Char) (t : List Char) (p : Nat × List Char)
    (hp : p ∈ mCands (c1 :: c2 :: t)) : p.2 = t ∨ p.2 = c2 :: t := by
  simp only [mCands, List.mem_append] at hp
  rcases hp with (hp | hp) | hp
  · split at hp
    · simp only [List.mem_singleton] at hp
      rw [hp]
      exact Or.inl rfl
    · simp at hp
  · split at hp
    · simp only [List.mem_singleton] at hp
      rw [hp]
      exact Or.inl rfl
    · simp at hp
  · split at hp
    · simp only [List.mem_singleton] at hp
      rw [hp]
      exact Or.inr rfl
    · simp at hp

theorem mdyComplete_render (sep : Char) (m d y : Nat)
    (hm1 : 1 ≤ m) (hm2 : m ≤ 12) (hd1 : 1 ≤ d) (hd2 : d ≤ 31) (hy : y ≤ 9999) :
    mdyComplete sep (pad2 m ++ sep :: (pad2 d ++ sep :: pad4 y)) = some (m, d, y, []) := by
  rcases Nat.lt_or_ge m 10 with hm9 | hm10 <;> rcases Nat.lt_or_ge d 10 with hd9 | hd10
  · simp [mdyComplete, List.findSome?_cons, expectC,
      mCands_pad2_low m (sep :: (pad2 d ++ sep :: pad4 y)) hm1 (by omega),
      dCands_pad2_low d (sep :: pad4 y) hd1 (by omega), yParse_pad4_nil y hy]
  · simp [mdyComplete, List.findSome?_cons, expectC,
      mCands_pad2_low m (sep :: (pad2 d ++ sep :: pad4 y)) hm1 (by omega),
      dCands_pad2_high d (sep :: pad4 y) hd10 (by omega), yParse_pad4_nil y hy]
  · simp [mdyComplete, List.findSome?_cons, expectC,
      mCands_pad2_high m (sep :: (pad2 d ++ sep :: pad4 y)) hm10 (by omega),
      dCands_pad2_low d (sep :: pad4 y) hd1 (by omega), yParse_pad4_nil y hy]
  · simp [mdyComplete, List.findSome?_cons, expectC,
      mCands_pad2_high m (sep :: (pad2 d ++ sep :: pad4 y)) hm10 (by omega),
      dCands_pad2_high d (sep :: pad4 y) hd10 (by omega), yParse_pad4_nil y hy]

/-- The hyphen format fails on a slash-rendered date: the literal hyphen
never matches the slash or a digit. -/
theorem mdyComplete_hyphen_slash (m d y : Nat)
    (hm1 : 1 ≤ m) (hm2 : m ≤ 12) :
    mdyComplete '-' (pad2 m ++ '/' :: (pad2 d ++ '/' :: pad4 y)) = none := by
  rcases Nat.lt_or_ge m 10 with hm9 | hm10
  · simp [mdyComplete, List.findSome?_cons, expectC,
      mCands_pad2_low m ('/' :: (pad2 d ++ '/' :: pad4 y)) hm1 (by omega),
      dchar_ne_hyphen]
  · simp [mdyComplete, List.findSome?_cons, expectC,
      mCands_pad2_high m ('/' :: (pad2 d ++ '/' :: pad4 y)) hm10 (by omega),
      dchar_ne_hyphen]

/-- Both month-day formats fail on a year-first rendering: after consuming
one or two digits of the year, the expected separator meets a digit. -/
theorem mdyComplete_pad4_none (sep : Char) (y : Nat) (tail : List Char)
    (hsep : sep = '-' ∨ sep = '/') :
    mdyComplete sep (pad4 y ++ tail) = none := by
  have e : pad4 y ++ tail = dchar (y / 1000 % 10) :: dchar (y / 100 % 10) ::
      (dchar (y / 10 % 10) :: dchar (y % 10) :: tail) := rfl
  rw [e]
  unfold mdyComplete
  apply List.findSome?_eq_none_iff.mpr
  intro p hp
  rcases mCands_rest _ _ _ p hp with h2 | h1
  · rcases hsep with rfl | rfl <;>
      simp [expectC, h2, dchar_ne_hyphen, dchar_ne_slash]
  · rcases hsep with rfl | rfl <;>
      simp [expectC, h1, dchar_ne_hyphen, dchar_ne_slash]

/-- Day-directive candidates on a rendered day below ten ending the input. -/
theorem dCands_pad2_low_nil (d : Nat) (h1 : 1 ≤ d) (h2 : d ≤ 9) :
    dCands (pad2 d) = [(d, [])] := by
  have := dCands_pad2_low d [] h1 h2
  simpa using this

/-- Day-directive candidates on a rendered day of ten to thirty-one ending
the input. -/
theorem dCands_pad2_high_nil (d : Nat) (h1 : 10 ≤ d) (h2 : d ≤ 31) :
    dCands (pad2 d) = [(d, []), (d / 10, [dchar (d % 10)])] := by
  have := dCands_pad2_high d [] h1 h2
  simpa using this

/-- The year-first format inverts the year-first rendering. -/
theorem ymdComplete_render (m d y : Nat)
    (hm1 : 1 ≤ m) (hm2 : m ≤ 12) (hd1 : 1 ≤ d) (hd2 : d ≤ 31) (hy : y ≤ 9999) :
    ymdComplete (pad4 y ++ '-' :: (pad2 m ++ '-' :: pad2 d)) = some (m, d, y, []) := by
  rcases Nat.lt_or_ge m 10 with hm9 | hm10 <;> rcases Nat.lt_or_ge d 10 with hd9 | hd10
  · simp [ymdComplete, List.findSome?_cons, expectC,
      yParse_pad4 y ('-' :: (pad2 m ++ '-' :: pad2 d)) hy,
      mCands_pad2_low m ('-' :: pad2 d) hm1 (by omega),
      dCands_pad2_low_nil d hd1 (by omega)]
  · simp [ymdComplete, List.findSome?_cons, expectC,
      yParse_pad4 y ('-' :: (pad2 m ++ '-' :: pad2 d)) hy,
      mCands_pad2_low m ('-' :: pad2 d) hm1 (by omega),
      dCands_pad2_high_nil d hd10 (by omega)]
  · simp [ymdComplete, List.findSome?_cons, expectC,
      yParse_pad4 y ('-' :: (pad2 m ++ '-' :: pad2 d)) hy,
      mCands_pad2_high m ('-' :: pad2 d) hm10 (by omega),
      dCands_pad2_low_nil d hd1 (by omega)]
  · simp [ymdComplete, List.findSome?_cons, expectC,
      yParse_pad4 y ('-' :: (pad2 m ++ '-' :: pad2 d)) hy,
      mCands_pad2_high m ('-' :: pad2 d) hm10 (by omega),
      dCands_pad2_high_nil d hd10 (by omega)]

/-- Bounds extracted from calendar validity. -/
theorem validDate_bounds (y m d : Nat) (h : validDate y m d = true) :
    1 ≤ y ∧ y ≤ 9999 ∧ 1 ≤ m ∧ m ≤ 12 ∧ 1 ≤ d ∧ d ≤ 31 := by
  unfold validDate at h
  simp only [Bool.and_eq_true, decide_eq_true_eq] at h
  have hd31 : daysInMonth y m ≤ 31 := by
    unfold daysInMonth
    split
    · split <;> omega
    · split <;> omega
  omega

/-- The format loop on a month-day-year hyphen rendering: the first format
parses it. -/
theorem tryFormats_MDYh (y m d : Nat) (hv : validDate y m d = true) :
    tryFormats (renderMDYh y m d) = some ⟨y, m, d⟩ := by
  obtain ⟨hy1, hy2, hm1, hm2, hd1, hd2⟩ := validDate_bounds y m d hv
  unfold tryFormats strpMDYhyphen renderMDYh
  rw [mdyComplete_render '-' m d y hm1 hm2 hd1 hd2 hy2]
  simp [finishStrp, hv, Option.orElse]

/-- The format loop on a month-day-year slash rendering: the hyphen format
fails, the slash format parses it. -/
theorem tryFormats_MDYs (y m d : Nat) (hv : validDate y m d = true) :
    tryFormats (renderMDYs y m d) = some ⟨y, m, d⟩ := by
  obtain ⟨hy1, hy2, hm1, hm2, hd1, hd2⟩ := validDate_bounds y m d hv
  unfold tryFormats strpMDYhyphen strpMDYslash renderMDYs
  rw [mdyComplete_hyphen_slash m d y hm1 hm2]
  rw [mdyComplete_render '/' m d y hm1 hm2 hd1 hd2 hy2]
  simp [finishStrp, hv, Option.orElse]

/-- The format loop on a year-month-day rendering: both month-first formats
fail, the year-first format parses it. -/
theorem tryFormats_YMDh (y m d : Nat) (hv : validDate y m d = true) :
    tryFormats (renderYMDh y m d) = some ⟨y, m, d⟩ := by
  obtain ⟨hy1, hy2, hm1, hm2, hd1, hd2⟩ := validDate_bounds y m d hv
  unfold tryFormats strpMDYhyphen strpMDYslash strpYMD renderYMDh
  rw [mdyComplete_pad4_none '-' y _ (Or.inl rfl)]
  rw [mdyComplete_pad4_none '/' y _ (Or.inr rfl)]
  rw [ymdComplete_render m d y hm1 hm2 hd1 hd2 hy2]
  simp [finishStrp, hv, Option.orElse]

/-- Stripping is the identity on whitespace-free lists. -/
theorem trimC_of_noWs (l : List Char) (h : ∀ c ∈ l, isWsC c = false) :
    trimC l = l := by
  have h1 : ltrimC l = l := by
    cases l with
    | nil => rfl
    | cons c t =>
      exact List.dropWhile_cons_of_neg (by simp [h c (List.mem_cons_self c t)])
  unfold trimC rtrimC
  rw [h1]
  rw [List.rdropWhile_eq_self_iff]
  intro hl
  simp [h _ (List.getLast_mem hl)]

/-- No-whitespace facts compose over append. -/
theorem noWs_append (l1 l2 : List Char) (h1 : ∀ c ∈ l1, isWsC c = false)
    (h2 : ∀ c ∈ l2, isWsC c = false) : ∀ c ∈ l1 ++ l2, isWsC c = false := by
  intro c hc
  rcases List.mem_append.mp hc with h | h
  · exact h1 c h
  · exact h2 c h

/-- No-whitespace facts compose over cons. -/
theorem noWs_cons (x : Char) (l : List Char) (hx : isWsC x = false)
    (h : ∀ c ∈ l, isWsC c = false) : ∀ c ∈ x :: l, isWsC c = false := by
  intro c hc
  rcases List.mem_cons.mp hc with rfl | h2
  · exact hx
  · exact h c h2

/-- Two-digit renderings contain no whitespace. -/
theorem noWs_pad2 (n : Nat) : ∀ c ∈ pad2 n, isWsC c = false :=
  noWs_cons _ _ (isWsC_dchar _) (noWs_cons _ _ (isWsC_dchar _) (fun c hc => absurd hc (List.not_mem_nil c)))

/-- Four-digit renderings contain no whitespace. -/
theorem noWs_pad4 (n : Nat) : ∀ c ∈ pad4 n, isWsC c = false :=
  noWs_cons _ _ (isWsC_dchar _) (noWs_cons _ _ (isWsC_dchar _)
    (noWs_cons _ _ (isWsC_dchar _) (noWs_cons _ _ (isWsC_dchar _)
      (fun c hc => absurd hc (List.not_mem_nil c)))))

/-- Evaluation of DOB normalization on whitespace-free input with a known
parse. -/
theorem normalizeDob_eval (today : Date) (R : List Char) (dt : Date)
    (hnw : ∀ c ∈ R, isWsC c = false) (hne : ¬ R = [])
    (hparse : tryFormats R = some dt) :
    normalizeDob today ⟨R⟩ =
      if dateLtB today dt = true then none else some ⟨renderCanonical dt⟩ := by
  unfold normalizeDob
  have hdata : (⟨R⟩ : String).data = R := rfl
  rw [hdata, trimC_of_noWs R hnw, if_neg hne, hparse]
  simp [Option.orElse]

/-- C4: date round-trip.  For every real calendar date (month, day and year
within datetime bounds) not after the current date, rendering it in any of
the three accepted conventions — month-day-year with hyphens, month-day-year
with slashes, year-month-day with hyphens, each with zero-padded two-digit
month and day and four-digit year — and normalizing yields the same
canonical string: the month-day-year hyphen rendering itself. -/
theorem claim_C4 (today : Date) (y m d : Nat)
    (hv : validDate y m d = true) (hpast : dateLtB today ⟨y, m, d⟩ = false) :
    normalizeDob today ⟨renderMDYh y m d⟩ = some ⟨renderMDYh y m d⟩ ∧
    normalizeDob today ⟨renderMDYs y m d⟩ = some ⟨renderMDYh y m d⟩ ∧
    normalizeDob today ⟨renderYMDh y m d⟩ = some ⟨renderMDYh y m d⟩ := by
  have hcanon : renderCanonical ⟨y, m, d⟩ = renderMDYh y m d := rfl
  have hnw1 : ∀ c ∈ renderMDYh y m d, isWsC c = false :=
    noWs_append _ _ (noWs_pad2 m) (noWs_cons _ _ (by decide)
      (noWs_append _ _ (noWs_pad2 d) (noWs_cons _ _ (by decide) (noWs_pad4 y))))
  have hnw2 : ∀ c ∈ renderMDYs y m d, isWsC c = false :=
    noWs_append _ _ (noWs_pad2 m) (noWs_cons _ _ (by decide)
      (noWs_append _ _ (noWs_pad2 d) (noWs_cons _ _ (by decide) (noWs_pad4 y))))
  have hnw3 : ∀ c ∈ renderYMDh y m d, isWsC c = false :=
    noWs_append _ _ (noWs_pad4 y) (noWs_cons _ _ (by decide)
      (noWs_append _ _ (noWs_pad2 m) (noWs_cons _ _ (by decide) (noWs_pad2 d))))
  have hne1 : ¬ renderMDYh y m d = [] := by unfold renderMDYh pad2; simp
  have hne2 : ¬ renderMDYs y m d = [] := by unfold renderMDYs pad2; simp
  have hne3 : ¬ renderYMDh y m d = [] := by unfold renderYMDh pad4; simp
  refine ⟨?_, ?_, ?_⟩
  · rw [normalizeDob_eval today _ ⟨y, m, d⟩ hnw1 hne1 (tryFormats_MDYh y m d hv),
      hpast]
    simp [hcanon]
  · rw [normalizeDob_eval today _ ⟨y, m, d⟩ hnw2 hne2 (tryFormats_MDYs y m d hv),
      hpast]
    simp [hcanon]
  · rw [normalizeDob_eval today _ ⟨y, m, d⟩ hnw3 hne3 (tryFormats_YMDh y m d hv),
      hpast]
    simp [hcanon]

/-- Witness for C4 on the leap day 2016-02-29 at the reference date. -/
theorem claim_C4_witness :
    validDate 2016 2 29 = true ∧ dateLtB todayRef ⟨2016, 2, 29⟩ = false ∧
    (normalizeDob todayRef ⟨renderMDYh 2016 2 29⟩ = some ⟨renderMDYh 2016 2 29⟩ ∧
     normalizeDob todayRef ⟨renderMDYs 2016 2 29⟩ = some ⟨renderMDYh 2016 2 29⟩ ∧
     normalizeDob todayRef ⟨renderYMDh 2016 2 29⟩ = some ⟨renderMDYh 2016 2 29⟩) :=
  ⟨by decide, by decide, claim_C4 todayRef 2016 2 29 (by decide) (by decide)⟩
